import Mathlib

/-!
Verification of the `aoti-rs` C++ shim (`src/csrc/aoti.cc`, `src/csrc/aoti.h`).

The shim marshals opaque tensor handles between a host runtime and the
wrapped `torch::inductor::AOTIModelPackageLoader`.  Pure marshalling code
is translated directly from the source; the wrapped native library is not
part of the repository, so its behaviour is modelled from the spec where
needed (each such definition is marked in its doc comment).

Memory model: the shim heap-allocates output tensors with `new` and never
frees anything itself, so we model the heap as a bump allocator: an
ever-growing store whose addresses are never reused.  A pointer is valid
when it is below the bump pointer `next`.
-/

namespace AotiRs

/-- Opaque tensor value owned by the external tensor runtime; the shim only
copies and forwards it, never inspects it. -/
structure Tensor where
  data : List Int
deriving DecidableEq, Repr, Inhabited

/-- Mirrors `struct TensorPtr { size_t ptr; }` from `aoti.h`: a borrowed raw
pointer to a caller-owned tensor. -/
structure TensorPtr where
  ptr : Nat
deriving DecidableEq, Repr

/-- Mirrors `struct OwnedTensor { size_t ptr; }` from `aoti.h`: a raw pointer
to a heap-allocated tensor whose ownership is transferred to the caller. -/
structure OwnedTensor where
  ptr : Nat
deriving DecidableEq, Repr

/-- Mirrors `struct MetadataEntry { rust::String key; rust::String value; }`
from `aoti.h`. -/
structure MetadataEntry where
  key : String
  value : String
deriving DecidableEq, Repr

/-- Error taxonomy of the spec (section 7); C++ exceptions of the wrapped
runtime are modelled as values of this type. -/
inductive Err where
  | packageNotFound
  | packageFormat
  | deviceUnavailable
  | invalidHandle
  | execution (msg : String)
deriving DecidableEq, Repr

/-- The process heap as seen by the shim: a bump allocator.  `next` is the
next fresh address; `mem` associates allocated addresses to the tensors
stored there.  The shim never calls `delete`, so addresses are never
reused and every allocation yields an address distinct from all live
objects, which is exactly what C++ `new` guarantees here. -/
structure Heap where
  next : Nat
  mem : List (Nat × Tensor)
deriving Repr

/-- Dereference: the tensor stored at address `p`, when `p` is allocated. -/
def Heap.lookup (h : Heap) (p : Nat) : Option Tensor :=
  (h.mem.find? (fun e => e.1 == p)).map (fun e => e.2)

/-- Reading through a raw pointer, as the source does with `*tensor_ptr`.
Dereferencing an unallocated address is undefined behaviour in the source;
theorems about reads therefore assume the address is allocated. -/
def Heap.read (h : Heap) (p : Nat) : Tensor :=
  (h.lookup p).getD default

/-- Models one `new at::Tensor(...)`: returns the fresh address and the
extended heap. -/
def Heap.alloc (h : Heap) (t : Tensor) : Nat × Heap :=
  (h.next, ⟨h.next + 1, (h.next, t) :: h.mem⟩)

/-- Allocating a list of tensors in order, as the output loops of
`loader_run` and `loader_boxed_run` do; returns the addresses in the same
order as the tensors. -/
def allocList : Heap → List Tensor → List Nat × Heap
  | h, [] => ([], h)
  | h, t :: ts =>
    let r := h.alloc t
    let rs := allocList r.2 ts
    (r.1 :: rs.1, rs.2)

/-- Modelled from the spec: one execution runner of the pool, bound to a
device index (spec section 2 and 4.1); the wrapped runtime's runner
implementation is external to this repository. -/
structure Runner where
  device : Int
deriving DecidableEq, Repr

/-- Modelled from the spec: the on-disk model package as the wrapped
runtime exposes it — a metadata mapping, a call spec, constant FQNs, and
the compiled entry point, which either produces the output tensors in the
order the compiled code emits them or fails with an execution error
(spec sections 3 and 4.3).  `boxed_run` of the wrapped runtime is
semantically equivalent to `run` (spec sections 4.3 and 9), so one entry
point `modelRun` serves both. -/
structure Package where
  metadata : List (String × String)
  callSpec : List String
  constantFqns : List String
  modelRun : List Tensor → Except Err (List Tensor)

/-- Modelled from the spec: a valid package has a non-empty call spec
(spec section 8, first testable property). -/
def Package.valid (p : Package) : Prop :=
  p.callSpec ≠ []

/-- Modelled from the spec: the environment the wrapped runtime sees — the
packages resolvable by (path, model name) and the available compute
devices (spec sections 4.1 and 7). -/
structure World where
  packages : List ((String × String) × Package)
  availableDevices : List Int

/-- Resolving a (path, model name) pair to a package. -/
def World.find (w : World) (path name : String) : Option Package :=
  (w.packages.find? (fun e => e.1.1 == path && e.1.2 == name)).map (fun e => e.2)

/-- Modelled from the spec: the state of a constructed
`torch::inductor::AOTIModelPackageLoader` — the loaded package, the
configuration, and the allocated runner pool, each runner bound to the
requested device (spec sections 3 and 4.1). -/
structure AOTIModelPackageLoader where
  pkg : Package
  runSingleThreaded : Bool
  numRunners : Nat
  deviceIndex : Int
  runners : List Runner

/-- Translated from `loader_new` in `aoti.cc`, which forwards its five
arguments to the `AOTIModelPackageLoader` constructor (the `int8_t`
argument is cast to `c10::DeviceIndex`, an identity on its range).  The
constructor itself is external; modelled from the spec: `device_index`
must reference an available device or the sentinel `-1` meaning
host-only, failing with `DeviceUnavailableError` otherwise (spec section
4.1); the path and model name must resolve to a package; on success a
pool of runners is allocated, each bound to `device_index`
(`single_threaded` configurations use exactly one runner, spec section
4.3). -/
def loader_new (w : World) (model_package_path model_name : String)
    (run_single_threaded : Bool) (num_runners : Nat) (device_index : Int) :
    Except Err AOTIModelPackageLoader :=
  if device_index = -1 ∨ device_index ∈ w.availableDevices then
    match w.find model_package_path model_name with
    | none => .error .packageNotFound
    | some pkg =>
      .ok ⟨pkg, run_single_threaded, num_runners, device_index,
        List.replicate (if run_single_threaded then 1 else num_runners)
          ⟨device_index⟩⟩
  else
    .error .deviceUnavailable

/-- The input-marshalling loop of `loader_run` and `loader_boxed_run`:
each borrowed pointer is dereferenced and the tensor copied into a fresh
`std::vector<at::Tensor>`. -/
def derefInputs (h : Heap) (inputs : List TensorPtr) : List Tensor :=
  inputs.map (fun t => h.read t.ptr)

/-- Translated from `loader_run` in `aoti.cc`: dereference and copy each
input, call the wrapped runtime's `run`, then heap-allocate each output
tensor in order, returning the fresh addresses as owned handles.  A
runtime failure propagates before any output allocation, leaving the heap
unchanged. -/
def loader_run (loader : AOTIModelPackageLoader) (h : Heap)
    (inputs : List TensorPtr) : Except Err (List OwnedTensor) × Heap :=
  let cpp_inputs := derefInputs h inputs
  match loader.pkg.modelRun cpp_inputs with
  | .error e => (.error e, h)
  | .ok outputs =>
    let r := allocList h outputs
    (.ok (r.1.map OwnedTensor.mk), r.2)

/-- Translated from `loader_boxed_run` in `aoti.cc`: dereference and copy
each input into a fresh internal vector, move that copy into the wrapped
runtime's `boxed_run`, then heap-allocate each output in order.  The
caller's vector is received by mutable reference but never written, so the
model returns it unchanged as the third component.  The wrapped
`boxed_run` is semantically equivalent to `run` (spec sections 4.3 and
9), hence the same `modelRun` entry point. -/
def loader_boxed_run (loader : AOTIModelPackageLoader) (h : Heap)
    (inputs : List TensorPtr) :
    Except Err (List OwnedTensor) × Heap × List TensorPtr :=
  let cpp_inputs := derefInputs h inputs
  match loader.pkg.modelRun cpp_inputs with
  | .error e => (.error e, h, inputs)
  | .ok outputs =>
    let r := allocList h outputs
    (.ok (r.1.map OwnedTensor.mk), r.2, inputs)

/-- The string-marshalling loop of `loader_get_call_spec` and
`loader_get_constant_fqns`: each `std::string` is converted to a
`rust::String` and pushed in order. -/
def marshalStrings : List String → List String
  | [] => []
  | s :: rest => s :: marshalStrings rest

/-- The map-marshalling loop of `loader_get_metadata` and
`loader_load_metadata_from_package`: each key/value pair becomes a
`MetadataEntry`. -/
def marshalMetadata : List (String × String) → List MetadataEntry
  | [] => []
  | kv :: rest => ⟨kv.1, kv.2⟩ :: marshalMetadata rest

/-- Translated from `loader_get_metadata` in `aoti.cc`: read the loader's
metadata mapping and marshal each entry.  The read touches no shim state,
so the heap is returned unchanged. -/
def loader_get_metadata (loader : AOTIModelPackageLoader) (h : Heap) :
    List MetadataEntry × Heap :=
  (marshalMetadata loader.pkg.metadata, h)

/-- Translated from `loader_get_call_spec` in `aoti.cc`: read the loader's
call spec and marshal each string in order; no shim state is touched. -/
def loader_get_call_spec (loader : AOTIModelPackageLoader) (h : Heap) :
    List String × Heap :=
  (marshalStrings loader.pkg.callSpec, h)

/-- Translated from `loader_get_constant_fqns` in `aoti.cc`: read the
loader's constant FQNs and marshal each string in order; no shim state is
touched. -/
def loader_get_constant_fqns (loader : AOTIModelPackageLoader) (h : Heap) :
    List String × Heap :=
  (marshalStrings loader.pkg.constantFqns, h)

/-- Translated from `loader_load_metadata_from_package` in `aoti.cc`: call
the static `AOTIModelPackageLoader::load_metadata_from_package` and
marshal the result.  The static call is external; modelled from the spec:
it resolves the package by (path, model name) and reads only its metadata,
constructing no loader, allocating no runner pool, and requiring no
device (spec section 4.1, static variant). -/
def loader_load_metadata_from_package (w : World)
    (model_package_path model_name : String) :
    Except Err (List MetadataEntry) :=
  match w.find model_package_path model_name with
  | none => .error .packageNotFound
  | some pkg => .ok (marshalMetadata pkg.metadata)

/-! ### Helper lemmas about the bump-allocator heap -/

/-- Batch allocation returns as many addresses as tensors. -/
theorem allocList_length (h : Heap) (ts : List Tensor) :
    (allocList h ts).1.length = ts.length := by
  induction ts generalizing h with
  | nil => simp [allocList]
  | cons t ts ih => simp [allocList, ih]

/-- The bump pointer after a batch allocation advances by exactly the
number of tensors allocated. -/
theorem allocList_next (h : Heap) (ts : List Tensor) :
    (allocList h ts).2.next = h.next + ts.length := by
  induction ts generalizing h with
  | nil => simp [allocList]
  | cons t ts ih =>
    simp only [allocList, ih, Heap.alloc, List.length_cons]
    omega

/-- The addresses returned by a batch allocation are consecutive from the
initial bump pointer: the i-th output lives at `h.next + i`. -/
theorem allocList_addr (h : Heap) (ts : List Tensor) (i : Nat)
    (hi : i < ts.length) :
    (allocList h ts).1.get ⟨i, by simpa [allocList_length] using hi⟩ =
      h.next + i := by
  induction ts generalizing h i with
  | nil => simp at hi
  | cons t ts ih =>
    cases i with
    | zero => simp [allocList, Heap.alloc]
    | succ j =>
      have hj : j < ts.length := Nat.lt_of_succ_lt_succ hi
      have := ih (h.alloc t).2 j hj
      simp only [Heap.alloc] at this
      simp only [allocList, List.get_cons_succ, this, Heap.alloc]
      omega

/-- Every address returned by a batch allocation is at or above the initial
bump pointer: it is fresh with respect to everything allocated before. -/
theorem allocList_fresh (h : Heap) (ts : List Tensor) (p : Nat)
    (hp : p ∈ (allocList h ts).1) : h.next ≤ p := by
  induction ts generalizing h with
  | nil => simp [allocList] at hp
  | cons t ts ih =>
    simp only [allocList, List.mem_cons] at hp
    rcases hp with rfl | hp
    · exact Nat.le_refl _
    · have := ih (h.alloc t).2 hp
      simp only [Heap.alloc] at this
      omega

/-- Frame property: batch allocation never disturbs an address already
allocated (below the initial bump pointer). -/
theorem allocList_frame (h : Heap) (ts : List Tensor) (q : Nat)
    (hq : q < h.next) : (allocList h ts).2.lookup q = h.lookup q := by
  induction ts generalizing h with
  | nil => simp [allocList]
  | cons t ts ih =>
    have hq' : q < (h.alloc t).2.next := Nat.lt_trans hq (Nat.lt_succ_self _)
    have := ih (h.alloc t).2 hq'
    simp only [allocList]
    rw [this]
    simp only [Heap.alloc, Heap.lookup, List.find?]
    have : (h.next == q) = false := by
      simp [Nat.ne_of_gt hq]
    simp [this]

/-- Reading back the i-th allocated address in the final heap yields the
i-th tensor of the batch. -/
theorem allocList_read (h : Heap) (ts : List Tensor) (i : Nat)
    (hi : i < ts.length) :
    (allocList h ts).2.read (h.next + i) = ts.get ⟨i, hi⟩ := by
  induction ts generalizing h i with
  | nil => simp at hi
  | cons t ts ih =>
    cases i with
    | zero =>
      have hfr := allocList_frame (h.alloc t).2 ts h.next (by simp [Heap.alloc])
      simp only [allocList, Heap.read, Nat.add_zero]
      rw [hfr]
      simp [Heap.alloc, Heap.lookup]
    | succ j =>
      have hj : j < ts.length := Nat.lt_of_succ_lt_succ hi
      have := ih (h.alloc t).2 j hj
      simp only [Heap.alloc] at this
      simp only [allocList, List.get_cons_succ]
      rw [show h.next + (j + 1) = h.next + 1 + j by omega]
      exact this

/-- Marshalling a list of strings is the identity on the abstract string
values. -/
theorem marshalStrings_eq (xs : List String) : marshalStrings xs = xs := by
  induction xs with
  | nil => rfl
  | cons x xs ih => simp [marshalStrings, ih]

/-- The tensor values an execution result denotes: each owned handle read
through the heap it was allocated in.  Used to compare `run` and
`boxed_run` by value rather than by address. -/
def runResultValues (r : Except Err (List OwnedTensor)) (h : Heap) :
    Except Err (List Tensor) :=
  r.map (fun outs => outs.map (fun o => h.read o.ptr))

/-! ### Concrete example objects, used by the witnesses -/

/-- A concrete package: one metadata entry, a two-element call spec, one
constant FQN, and an entry point returning a single tensor. -/
def pkg0 : Package :=
  ⟨[("key", "val")], ["input_0", "output_0"], ["layer.weight"],
    fun _ => .ok [⟨[42]⟩]⟩

/-- A concrete world resolving one package, with device 0 available. -/
def w0 : World := ⟨[(("resnet.pt2", "forward"), pkg0)], [0]⟩

/-- A concrete heap with two caller-owned tensors at addresses 0 and 1. -/
def h0 : Heap := ⟨2, [(0, ⟨[1]⟩), (1, ⟨[2]⟩)]⟩

/-- The loader `loader_new w0 "resnet.pt2" "forward" false 2 0` yields. -/
def L0 : AOTIModelPackageLoader := ⟨pkg0, false, 2, 0, List.replicate 2 ⟨0⟩⟩

/-- The heap after `loader_run L0 h0 [⟨0⟩]`: the output tensor has been
allocated at the fresh address 2. -/
def h0run : Heap := ⟨3, [(2, ⟨[42]⟩), (0, ⟨[1]⟩), (1, ⟨[2]⟩)]⟩

/-- A concrete package whose entry point always fails with an execution
error, standing for a wrapped-runtime failure. -/
def pkgFail : Package :=
  ⟨[], ["input_0"], [], fun _ => .error (.execution "shape mismatch")⟩

/-- A loader over the failing package. -/
def LFail : AOTIModelPackageLoader := ⟨pkgFail, true, 1, -1, [⟨-1⟩]⟩

/-! ### The claims -/

/-- C1: every output handle of `loader_run` is a fresh heap allocation —
its pointer differs from every input handle's pointer and from every
handle allocated by any previous call (any address below the bump pointer
at entry, which includes all previously returned outputs since the shim
never frees). -/
theorem loader_run_outputs_fresh (L : AOTIModelPackageLoader) (h : Heap)
    (inputs : List TensorPtr) (prev : List OwnedTensor)
    (outs : List OwnedTensor) (h' : Heap)
    (hin : ∀ t ∈ inputs, t.ptr < h.next)
    (hprev : ∀ o ∈ prev, o.ptr < h.next)
    (hrun : loader_run L h inputs = (.ok outs, h')) :
    ∀ o ∈ outs, (∀ t ∈ inputs, o.ptr ≠ t.ptr) ∧ ∀ p ∈ prev, o.ptr ≠ p.ptr := by
  intro o ho
  simp only [loader_run] at hrun
  cases hmr : L.pkg.modelRun (derefInputs h inputs) with
  | error e => rw [hmr] at hrun; simp at hrun
  | ok outputs =>
    rw [hmr] at hrun
    simp only [Prod.mk.injEq, Except.ok.injEq] at hrun
    obtain ⟨houts, _⟩ := hrun
    rw [← houts] at ho
    simp only [List.mem_map] at ho
    obtain ⟨p, hp, rfl⟩ := ho
    have hfresh : h.next ≤ p := allocList_fresh h outputs p hp
    constructor
    · intro t ht
      exact fun heq => absurd (heq ▸ hfresh) (Nat.not_le.mpr (hin t ht))
    · intro q hq
      exact fun heq => absurd (heq ▸ hfresh) (Nat.not_le.mpr (hprev q hq))

/-- C1 witness: at the concrete loader, heap and inputs, the single output
handle (address 2) differs from the input handle (address 0) and from the
previously returned handle (address 1). -/
theorem loader_run_outputs_fresh_witness :
    (OwnedTensor.mk 2).ptr ≠ (TensorPtr.mk 0).ptr ∧
    (OwnedTensor.mk 2).ptr ≠ (OwnedTensor.mk 1).ptr :=
  ⟨(loader_run_outputs_fresh L0 h0 [⟨0⟩] [⟨1⟩] [⟨2⟩] h0run
      (by decide) (by decide) (by rfl) ⟨2⟩ (by decide)).1 ⟨0⟩ (by decide),
    (loader_run_outputs_fresh L0 h0 [⟨0⟩] [⟨1⟩] [⟨2⟩] h0run
      (by decide) (by decide) (by rfl) ⟨2⟩ (by decide)).2 ⟨1⟩ (by decide)⟩

/-- C2: `loader_boxed_run` produces outputs equal in value to
`loader_run` on the same loader, heap and inputs — the two calls differ
only in how input ownership is handed to the wrapped runtime, and the
wrapped `boxed_run` is the same computation as `run` (spec sections 4.3
and 9, modelled by the shared `modelRun` entry point). -/
theorem loader_boxed_run_value_eq_run (L : AOTIModelPackageLoader)
    (h : Heap) (inputs : List TensorPtr) :
    runResultValues (loader_boxed_run L h inputs).1
        (loader_boxed_run L h inputs).2.1 =
      runResultValues (loader_run L h inputs).1 (loader_run L h inputs).2 := by
  cases hmr : L.pkg.modelRun (derefInputs h inputs) with
  | error e => simp [loader_run, loader_boxed_run, hmr]
  | ok outputs => simp [loader_run, loader_boxed_run, hmr]

/-- C5: `loader_run` never takes ownership of the caller's borrowed
inputs: every input cell of the heap is unchanged when the call returns
(the input pointers themselves are received by const reference and cannot
change), so the caller may reuse or release its handles afterwards. -/
theorem loader_run_preserves_inputs (L : AOTIModelPackageLoader) (h : Heap)
    (inputs : List TensorPtr) (res : Except Err (List OwnedTensor))
    (h' : Heap) (hin : ∀ t ∈ inputs, t.ptr < h.next)
    (hrun : loader_run L h inputs = (res, h')) :
    ∀ t ∈ inputs, h'.lookup t.ptr = h.lookup t.ptr := by
  intro t ht
  simp only [loader_run] at hrun
  cases hmr : L.pkg.modelRun (derefInputs h inputs) with
  | error e =>
    rw [hmr] at hrun
    simp only [Prod.mk.injEq] at hrun
    rw [← hrun.2]
  | ok outputs =>
    rw [hmr] at hrun
    simp only [Prod.mk.injEq] at hrun
    rw [← hrun.2]
    exact allocList_frame h outputs t.ptr (hin t ht)

/-- C5 witness: at the concrete loader, heap and input, the input cell at
address 0 is untouched by the call. -/
theorem loader_run_preserves_inputs_witness :
    h0run.lookup (TensorPtr.mk 0).ptr = h0.lookup (TensorPtr.mk 0).ptr :=
  loader_run_preserves_inputs L0 h0 [⟨0⟩] (.ok [⟨2⟩]) h0run
    (by decide) (by rfl) ⟨0⟩ (by decide)

/-- C10: `loader_boxed_run` receives the caller's input vector by mutable
reference but never writes to it — it copies each tensor into a fresh
internal vector and moves only the copy into the wrapped runtime — so the
vector and every pointer value in it are unchanged when the call returns,
and every input cell of the heap is likewise untouched. -/
theorem loader_boxed_run_preserves_caller_inputs
    (L : AOTIModelPackageLoader) (h : Heap) (inputs : List TensorPtr)
    (hin : ∀ t ∈ inputs, t.ptr < h.next) :
    (loader_boxed_run L h inputs).2.2 = inputs ∧
    ∀ t ∈ inputs,
      (loader_boxed_run L h inputs).2.1.lookup t.ptr = h.lookup t.ptr := by
  cases hmr : L.pkg.modelRun (derefInputs h inputs) with
  | error e => simp [loader_boxed_run, hmr]
  | ok outputs =>
    refine ⟨by simp [loader_boxed_run, hmr], ?_⟩
    intro t ht
    simp only [loader_boxed_run, hmr]
    exact allocList_frame h outputs t.ptr (hin t ht)

/-- C10 witness: at the concrete loader, heap and input, the caller's
vector comes back unchanged and the input cell at address 0 is
untouched. -/
theorem loader_boxed_run_preserves_caller_inputs_witness :
    (loader_boxed_run L0 h0 [⟨0⟩]).2.2 = [TensorPtr.mk 0] ∧
    ∀ t ∈ [TensorPtr.mk 0],
      (loader_boxed_run L0 h0 [⟨0⟩]).2.1.lookup t.ptr = h0.lookup t.ptr :=
  loader_boxed_run_preserves_caller_inputs L0 h0 [⟨0⟩] (by decide)

/-- C3: on a valid package, `loader_load_metadata_from_package` succeeds
without any prior open, and the mapping it returns equals the
`loader_get_metadata` result of any handle subsequently opened on the
same path and model name, whatever the threading, runner-count and device
arguments. -/
theorem load_metadata_matches_get_metadata (w : World) (p m : String)
    (pkg : Package) (hfind : w.find p m = some pkg) :
    ∃ md, loader_load_metadata_from_package w p m = .ok md ∧
      ∀ (st : Bool) (nr : Nat) (di : Int) (L : AOTIModelPackageLoader),
        loader_new w p m st nr di = .ok L →
        ∀ h : Heap, (loader_get_metadata L h).1 = md := by
  refine ⟨marshalMetadata pkg.metadata, ?_, ?_⟩
  · simp [loader_load_metadata_from_package, hfind]
  · intro st nr di L hopen h
    simp only [loader_new] at hopen
    by_cases hdev : di = -1 ∨ di ∈ w.availableDevices
    · rw [if_pos hdev, hfind] at hopen
      simp only [Except.ok.injEq] at hopen
      rw [← hopen]
      rfl
    · rw [if_neg hdev] at hopen
      exact absurd hopen (by simp)

/-- C3 witness: the concrete world resolves the package, so the static
metadata read succeeds and matches every subsequently opened handle. -/
theorem load_metadata_matches_get_metadata_witness :
    ∃ md, loader_load_metadata_from_package w0 "resnet.pt2" "forward" = .ok md ∧
      ∀ (st : Bool) (nr : Nat) (di : Int) (L : AOTIModelPackageLoader),
        loader_new w0 "resnet.pt2" "forward" st nr di = .ok L →
        ∀ h : Heap, (loader_get_metadata L h).1 = md :=
  load_metadata_matches_get_metadata w0 "resnet.pt2" "forward" pkg0 (by rfl)

/-- C4: when the wrapped entry point returns tensors `ts`, both
`loader_run` and `loader_boxed_run` return exactly one handle per tensor,
in the same order: reading the i-th returned handle in the resulting heap
yields the i-th tensor the wrapped runtime produced. -/
theorem run_output_order (L : AOTIModelPackageLoader) (h : Heap)
    (inputs : List TensorPtr) (ts : List Tensor)
    (hmr : L.pkg.modelRun (derefInputs h inputs) = .ok ts) :
    ∃ outs h', loader_run L h inputs = (.ok outs, h') ∧
      loader_boxed_run L h inputs = (.ok outs, h', inputs) ∧
      outs.length = ts.length ∧
      ∀ i (hi : i < ts.length) (hi' : i < outs.length),
        h'.read (outs.get ⟨i, hi'⟩).ptr = ts.get ⟨i, hi⟩ := by
  refine ⟨(allocList h ts).1.map OwnedTensor.mk, (allocList h ts).2, ?_, ?_, ?_, ?_⟩
  · simp [loader_run, hmr]
  · simp [loader_boxed_run, hmr]
  · simp [allocList_length]
  · intro i hi hi'
    have hlen : i < (allocList h ts).1.length := by
      simpa [allocList_length] using hi
    have hget : ((allocList h ts).1.map OwnedTensor.mk).get ⟨i, hi'⟩ =
        OwnedTensor.mk ((allocList h ts).1.get ⟨i, hlen⟩) := by
      simp
    rw [hget]
    have haddr := allocList_addr h ts i hi
    simp only [haddr]
    exact allocList_read h ts i hi

/-- C4 witness: at the concrete loader, heap and input, the entry point
returns one tensor and the corresponding output handle wraps it. -/
theorem run_output_order_witness :
    ∃ outs h', loader_run L0 h0 [⟨0⟩] = (.ok outs, h') ∧
      loader_boxed_run L0 h0 [⟨0⟩] = (.ok outs, h', [⟨0⟩]) ∧
      outs.length = [Tensor.mk [42]].length ∧
      ∀ i (hi : i < [Tensor.mk [42]].length) (hi' : i < outs.length),
        h'.read (outs.get ⟨i, hi'⟩).ptr = [Tensor.mk [42]].get ⟨i, hi⟩ :=
  run_output_order L0 h0 [⟨0⟩] [⟨[42]⟩] (by rfl)

/-- C6: `loader_load_metadata_from_package` is a pure read of the package
table: it succeeds on a valid package whatever devices exist (it requires
none and, by its result type, constructs no loader and no runner pool),
and its result depends on nothing but the package table, so any two calls
— against any device configuration and in any order — return the same
mapping. -/
theorem load_metadata_pure (w wAlt : World) (p m : String) (pkg : Package)
    (hpkgs : w.packages = wAlt.packages) (hfind : w.find p m = some pkg) :
    (loader_load_metadata_from_package w p m).isOk = true ∧
    loader_load_metadata_from_package w p m =
      loader_load_metadata_from_package wAlt p m := by
  have hfind' : wAlt.find p m = some pkg := by
    simpa [World.find, ← hpkgs] using hfind
  constructor
  · simp [loader_load_metadata_from_package, hfind, Except.isOk, Except.toBool]
  · simp [loader_load_metadata_from_package, hfind, hfind']

/-- C6 witness: the static read succeeds in the concrete world and agrees
with the same call in a world with no devices at all. -/
theorem load_metadata_pure_witness :
    (loader_load_metadata_from_package w0 "resnet.pt2" "forward").isOk = true ∧
    loader_load_metadata_from_package w0 "resnet.pt2" "forward" =
      loader_load_metadata_from_package ⟨w0.packages, []⟩ "resnet.pt2" "forward" :=
  load_metadata_pure w0 ⟨w0.packages, []⟩ "resnet.pt2" "forward" pkg0
    (by rfl) (by rfl)

/-- C7: an open with a device index that neither is the host-only
sentinel `-1` nor references an available device fails with
`DeviceUnavailableError`; on a successful open, every allocated runner of
the pool is bound to the requested device index. -/
theorem loader_new_device_check (w : World) (p m : String) (st : Bool)
    (nr : Nat) (di : Int) :
    (di ≠ -1 ∧ di ∉ w.availableDevices →
      loader_new w p m st nr di = .error .deviceUnavailable) ∧
    ∀ L, loader_new w p m st nr di = .ok L →
      ∀ r ∈ L.runners, r.device = di := by
  constructor
  · intro ⟨hs, hd⟩
    simp [loader_new, hs, hd]
  · intro L hopen r hr
    simp only [loader_new] at hopen
    by_cases hdev : di = -1 ∨ di ∈ w.availableDevices
    · rw [if_pos hdev] at hopen
      cases hfind : w.find p m with
      | none => rw [hfind] at hopen; exact absurd hopen (by simp)
      | some pkg =>
        rw [hfind] at hopen
        simp only [Except.ok.injEq] at hopen
        rw [← hopen] at hr
        simp only at hr
        have := List.eq_of_mem_replicate hr
        rw [this]
    · rw [if_neg hdev] at hopen
      exact absurd hopen (by simp)

/-- C7 witness: in the concrete world (devices `[0]`), opening with device
index 5 fails with `DeviceUnavailableError`, and the successfully opened
concrete loader has every runner bound to device 0. -/
theorem loader_new_device_check_witness :
    loader_new w0 "resnet.pt2" "forward" false 2 5 =
      .error .deviceUnavailable ∧
    ∀ r ∈ L0.runners, r.device = 0 :=
  ⟨(loader_new_device_check w0 "resnet.pt2" "forward" false 2 5).1
      ⟨by decide, by decide⟩,
    (loader_new_device_check w0 "resnet.pt2" "forward" false 2 0).2 L0
      (by rfl)⟩

/-- C8: on a handle opened over a valid package, `loader_get_call_spec`
returns a non-empty sequence, leaves the heap untouched, and a repeated
call threaded through the first call's state returns the identical
sequence. -/
theorem get_call_spec_nonempty_idem (w : World) (p m : String)
    (pkg : Package) (st : Bool) (nr : Nat) (di : Int)
    (L : AOTIModelPackageLoader) (h : Heap)
    (hfind : w.find p m = some pkg) (hvalid : pkg.valid)
    (hopen : loader_new w p m st nr di = .ok L) :
    (loader_get_call_spec L h).1 ≠ [] ∧
    (loader_get_call_spec L h).2 = h ∧
    (loader_get_call_spec L (loader_get_call_spec L h).2).1 =
      (loader_get_call_spec L h).1 := by
  have hLpkg : L.pkg = pkg := by
    simp only [loader_new] at hopen
    by_cases hdev : di = -1 ∨ di ∈ w.availableDevices
    · rw [if_pos hdev, hfind] at hopen
      simp only [Except.ok.injEq] at hopen
      rw [← hopen]
    · rw [if_neg hdev] at hopen
      exact absurd hopen (by simp)
  refine ⟨?_, rfl, rfl⟩
  simp only [loader_get_call_spec, hLpkg, marshalStrings_eq]
  exact hvalid

/-- C8 witness: the concrete loader's call spec is non-empty and the read
is repeatable with no heap effect. -/
theorem get_call_spec_nonempty_idem_witness :
    (loader_get_call_spec L0 h0).1 ≠ [] ∧
    (loader_get_call_spec L0 h0).2 = h0 ∧
    (loader_get_call_spec L0 (loader_get_call_spec L0 h0).2).1 =
      (loader_get_call_spec L0 h0).1 :=
  get_call_spec_nonempty_idem w0 "resnet.pt2" "forward" pkg0 false 2 0 L0 h0
    (by rfl) (by simp [Package.valid, pkg0]) (by rfl)

/-- C9: failures are surfaced to the immediate caller exactly as raised,
with no result: a wrapped-runtime execution failure makes `loader_run`
and `loader_boxed_run` return that very error with the heap unchanged (no
output is allocated), and an unresolvable package makes the static
metadata read and `loader_new` fail with `PackageNotFoundError`; no shim
operation catches, retries or transforms an error. -/
theorem shim_errors_propagate (L : AOTIModelPackageLoader) (h : Heap)
    (inputs : List TensorPtr) (e : Err) (w : World) (p m : String)
    (hfail : L.pkg.modelRun (derefInputs h inputs) = .error e) :
    loader_run L h inputs = (.error e, h) ∧
    loader_boxed_run L h inputs = (.error e, h, inputs) ∧
    (w.find p m = none →
      loader_load_metadata_from_package w p m = .error .packageNotFound ∧
      ∀ (st : Bool) (nr : Nat) (di : Int),
        (di = -1 ∨ di ∈ w.availableDevices) →
        loader_new w p m st nr di = .error .packageNotFound) := by
  refine ⟨by simp [loader_run, hfail], by simp [loader_boxed_run, hfail], ?_⟩
  intro hnone
  refine ⟨by simp [loader_load_metadata_from_package, hnone], ?_⟩
  intro st nr di hdev
  simp [loader_new, hnone, hdev]

/-- C9 witness: the failing concrete loader surfaces its execution error
verbatim from both entry points with the heap unchanged, and an unknown
package name fails the static read and the open with
`PackageNotFoundError`. -/
theorem shim_errors_propagate_witness :
    loader_run LFail h0 [⟨0⟩] = (.error (.execution "shape mismatch"), h0) ∧
    loader_boxed_run LFail h0 [⟨0⟩] =
      (.error (.execution "shape mismatch"), h0, [⟨0⟩]) ∧
    (w0.find "missing.pt2" "forward" = none →
      loader_load_metadata_from_package w0 "missing.pt2" "forward" =
        .error .packageNotFound ∧
      ∀ (st : Bool) (nr : Nat) (di : Int),
        (di = -1 ∨ di ∈ w0.availableDevices) →
        loader_new w0 "missing.pt2" "forward" st nr di =
          .error .packageNotFound) :=
  shim_errors_propagate LFail h0 [⟨0⟩] (.execution "shape mismatch")
    w0 "missing.pt2" "forward" (by rfl)

end AotiRs
